import Mathlib

/-!
Shallow embedding of the Dew Valley core (soil grid automaton, game-mode
manager, cyclic inventory selector, player tool orchestration) and proofs
of the specification's claims about it.

Source files embedded: `src/entities/soil.py`, `src/core/state_manager.py`,
`src/core/utils.py`, `src/entities/player.py`, `src/core/settings.py`.

Modelling conventions:
* Python lists become Lean `List`s; a Python `list.append` is `++ [a]`.
* Python indexing `xs[i]` with a possibly negative `i : Int` is `pyGet`
  (negative indices wrap from the end, out-of-range is `none`, i.e. an
  `IndexError`).
* Fallible Python code returns `Option`/`Except` or an explicit
  "raised" boolean that is threaded through callers exactly where an
  exception would propagate.
* Pixel coordinates are integers.  In the game every rect coordinate is
  an `int` (pygame rects), and tool target points are an integer sprite
  centre plus the integer offsets of `PLAYER_TOOL_OFFSET`, so nothing is
  lost by taking points in `Int × Int`.
-/

/-- Python list indexing `xs[i]` for `i : Int`: non-negative indices are
ordinary positions, negative indices wrap from the end (`xs[-1]` is the
last element), anything else raises `IndexError` (here: `none`). -/
def pyGet (xs : List α) (i : Int) : Option α :=
  if 0 ≤ i then xs[i.toNat]?
  else if (-i).toNat ≤ xs.length then xs[(xs.length - (-i).toNat)]?
  else none

/-- Replace the element at position `n` by `f` applied to it; lists too
short are returned unchanged (the callers below only ever hit the
in-range case, mirroring in-place mutation of a Python list element). -/
def modifyNth (f : α → α) : Nat → List α → List α
  | _, [] => []
  | 0, a :: as => f a :: as
  | n + 1, a :: as => a :: modifyNth f n as

theorem getElem?_modifyNth_self (f : α → α) (l : List α) (n : Nat) :
    (modifyNth f n l)[n]? = (l[n]?).map f := by
  induction l generalizing n with
  | nil => simp [modifyNth]
  | cons a as ih =>
    cases n with
    | zero => simp [modifyNth]
    | succ n => simpa [modifyNth] using ih n

theorem getElem?_modifyNth_ne (f : α → α) (l : List α) {m n : Nat} (h : m ≠ n) :
    (modifyNth f n l)[m]? = l[m]? := by
  induction l generalizing m n with
  | nil => simp [modifyNth]
  | cons a as ih =>
    cases n with
    | zero =>
      cases m with
      | zero => exact absurd rfl h
      | succ m => simp [modifyNth]
    | succ n =>
      cases m with
      | zero => simp [modifyNth]
      | succ m => simpa [modifyNth] using ih (by omega)

theorem length_modifyNth (f : α → α) (n : Nat) (l : List α) :
    (modifyNth f n l).length = l.length := by
  induction l generalizing n with
  | nil => cases n <;> rfl
  | cons a as ih => cases n with
    | zero => rfl
    | succ n => simpa [modifyNth] using ih n

/-! ## Soil grid data model (`src/entities/soil.py`)

A grid cell is the Python list of flag strings the source appends to:
`"F"` (farmable), `"X"` (tilled), `"W"` (watered), `"P"` (planted). -/

/-- The four flag strings a soil cell's list may contain. -/
inductive SoilFlag where
  | F
  | X
  | W
  | P
deriving DecidableEq, Repr

/-- A cell of `SoilLayer.grid`: the Python list of flags, in append order. -/
abbrev Cell := List SoilFlag

/-- `SoilLayer.grid`: a list of rows of cells. -/
abbrev SoilGrid := List (List Cell)

/-- `self.grid[r][c]` for non-negative in-range indices (the usual access
pattern of the soil code outside `create_soil_tiles`). -/
def cellAt (g : SoilGrid) (r c : Nat) : Option Cell :=
  (g[r]?).bind fun row => row[c]?

/-- In-place mutation of `self.grid[r][c]` (no-op when out of range;
every caller below computes `r`,`c` from coordinates of existing cells). -/
def modifyCell (g : SoilGrid) (r c : Nat) (f : Cell → Cell) : SoilGrid :=
  modifyNth (modifyNth f c) r g

theorem cellAt_modifyCell_self (g : SoilGrid) (r c : Nat) (f : Cell → Cell) :
    cellAt (modifyCell g r c f) r c = (cellAt g r c).map f := by
  unfold cellAt modifyCell
  rw [getElem?_modifyNth_self]
  cases g[r]? with
  | none => rfl
  | some row => simp [getElem?_modifyNth_self]

theorem cellAt_modifyCell_ne (g : SoilGrid) (r c : Nat) (f : Cell → Cell)
    {r' c' : Nat} (h : ¬(r' = r ∧ c' = c)) :
    cellAt (modifyCell g r c f) r' c' = cellAt g r' c' := by
  unfold cellAt modifyCell
  by_cases hr : r' = r
  · subst hr
    rw [getElem?_modifyNth_self]
    cases g[r']? with
    | none => rfl
    | some row =>
      have hc : c' ≠ c := fun hc => h ⟨rfl, hc⟩
      simp [getElem?_modifyNth_ne _ _ hc]
  · rw [getElem?_modifyNth_ne _ _ hr]

theorem cellAt_modifyCell (g : SoilGrid) (r c : Nat) (f : Cell → Cell)
    (r' c' : Nat) :
    cellAt (modifyCell g r c f) r' c' = cellAt g r' c' ∨
      (r' = r ∧ c' = c ∧
        cellAt (modifyCell g r c f) r' c' = (cellAt g r' c').map f) := by
  by_cases h : r' = r ∧ c' = c
  · exact Or.inr ⟨h.1, h.2, by rw [h.1, h.2, cellAt_modifyCell_self]⟩
  · exact Or.inl (cellAt_modifyCell_ne g r c f h)

/-! ## Tile-variant derivation (`SoilLayer.create_soil_tiles`, soil.py 211-269) -/

/-- The cascade of `if` statements of `create_soil_tiles` that assigns
`tile_type` from the four neighbour booleans `(t, r, b, l)` (each later
matching guard overwrites the earlier assignment; the guards are mutually
exclusive, see `tile_variant_table`). -/
def tile_type (t r b l : Bool) : String :=
  let v := "o"
  let v := if t && r && b && l then "x" else v
  let v := if l && !(t || r || b) then "r" else v
  let v := if r && !(t || l || b) then "l" else v
  let v := if r && l && !(t || b) then "lr" else v
  let v := if t && !(r || l || b) then "b" else v
  let v := if b && !(r || l || t) then "t" else v
  let v := if b && t && !(r || l) then "tb" else v
  let v := if l && b && !(t || r) then "tr" else v
  let v := if r && b && !(t || l) then "tl" else v
  let v := if l && t && !(b || r) then "br" else v
  let v := if r && t && !(b || l) then "bl" else v
  let v := if t && b && r && !l then "tbr" else v
  let v := if t && b && l && !r then "tbl" else v
  let v := if l && r && t && !b then "lrb" else v
  let v := if l && r && b && !t then "lrt" else v
  v

/-- The sixteen variant names of spec section 4.2. -/
inductive SpecVariant where
  | alone
  | allSides
  | rightEdgeOnly
  | leftEdgeOnly
  | horizontalRun
  | bottomEdgeOnly
  | topEdgeOnly
  | verticalRun
  | topRight
  | topLeft
  | bottomRight
  | bottomLeft
  | noLeft
  | noRight
  | noBottom
  | noTop
deriving DecidableEq, Repr, Fintype

/-- Modelled from the spec (section 4.2): the tile-variant table, rules
evaluated in the spec's order, first match wins, `alone` as the default;
written independently of `tile_type` so the two can be compared. -/
def specVariant (t r b l : Bool) : SpecVariant :=
  if t && r && b && l then .allSides
  else if l && !(t || r || b) then .rightEdgeOnly
  else if r && !(t || l || b) then .leftEdgeOnly
  else if l && r && !(t || b) then .horizontalRun
  else if t && !(r || l || b) then .bottomEdgeOnly
  else if b && !(r || l || t) then .topEdgeOnly
  else if t && b && !(r || l) then .verticalRun
  else if l && b && !(t || r) then .topRight
  else if r && b && !(t || l) then .topLeft
  else if l && t && !(b || r) then .bottomRight
  else if r && t && !(b || l) then .bottomLeft
  else if t && b && r && !l then .noLeft
  else if t && b && l && !r then .noRight
  else if l && r && t && !b then .noBottom
  else if l && r && b && !t then .noTop
  else .alone

/-- The asset key (filename stem in `graphics/images/soil`, the key of
`soil_surfs`) that each spec variant names: `alone` is drawn from `o.png`,
`all-sides` from `x.png`, `horizontal-run` from `lr.png`, `no-left` from
`tbr.png`, and so on. -/
def assetKey : SpecVariant → String
  | .alone => "o"
  | .allSides => "x"
  | .rightEdgeOnly => "r"
  | .leftEdgeOnly => "l"
  | .horizontalRun => "lr"
  | .bottomEdgeOnly => "b"
  | .topEdgeOnly => "t"
  | .verticalRun => "tb"
  | .topRight => "tr"
  | .topLeft => "tl"
  | .bottomRight => "br"
  | .bottomLeft => "bl"
  | .noLeft => "tbr"
  | .noRight => "tbl"
  | .noBottom => "lrb"
  | .noTop => "lrt"

/-- The fifteen non-default guards of the spec's variant table, in the
spec's rule order, evaluated on one neighbour combination. -/
def specGuards (t r b l : Bool) : List Bool :=
  [t && r && b && l,
   l && !(t || r || b), r && !(t || l || b), l && r && !(t || b),
   t && !(r || l || b), b && !(r || l || t), t && b && !(r || l),
   l && b && !(t || r), r && b && !(t || l),
   l && t && !(b || r), r && t && !(b || l),
   t && b && r && !l, t && b && l && !r, l && r && t && !b, l && r && b && !t]

/-- All sixteen variants, for stating distinctness of the asset keys. -/
def allSpecVariants : List SpecVariant :=
  [.alone, .allSides, .rightEdgeOnly, .leftEdgeOnly, .horizontalRun,
   .bottomEdgeOnly, .topEdgeOnly, .verticalRun, .topRight, .topLeft,
   .bottomRight, .bottomLeft, .noLeft, .noRight, .noBottom, .noTop]


/-- The four neighbour reads of `create_soil_tiles` (soil.py 218-221) for
the cell at row `r`, column `c` of its row `row`:
`t = "X" in self.grid[r - 1][c]`, `b = "X" in self.grid[r + 1][c]`,
`r = "X" in row[c + 1]`, `l = "X" in row[c - 1]` — Python indexing, so
`-1` wraps to the last row/column and an out-of-range read raises
`IndexError` (= `none`).  Result order: `(t, r, b, l)`. -/
def neighborsAt (g : SoilGrid) (row : List Cell) (r c : Nat) :
    Option (Bool × Bool × Bool × Bool) := do
  let tRow ← pyGet g ((r : Int) - 1)
  let tCell ← pyGet tRow (c : Int)
  let bRow ← pyGet g ((r : Int) + 1)
  let bCell ← pyGet bRow (c : Int)
  let rCell ← pyGet row ((c : Int) + 1)
  let lCell ← pyGet row ((c : Int) - 1)
  pure (decide (SoilFlag.X ∈ tCell), decide (SoilFlag.X ∈ rCell),
        decide (SoilFlag.X ∈ bCell), decide (SoilFlag.X ∈ lCell))

/-- A soil tile sprite: pixel top-left position and the `tile_type` key of
the surface it was created with (`SoilTile(pos=..., surf=self.soil_surfs[tile_type], ...)`). -/
abbrev SoilTileSprite := (Nat × Nat) × String

/-- Inner loop of `create_soil_tiles` over the cells of one row.  `cs` is
the suffix of `row` starting at column `c`.  Returns the tiles created and
whether an `IndexError` was raised (in which case the tiles created before
the raise survive in the freshly emptied sprite group and iteration stops). -/
def soilTilesCells (g : SoilGrid) (row : List Cell) (r : Nat) :
    Nat → List Cell → List SoilTileSprite × Bool
  | _, [] => ([], false)
  | c, cell :: rest =>
    if SoilFlag.X ∈ cell then
      match neighborsAt g row r c with
      | none => ([], true)
      | some (t, rn, b, l) =>
        let res := soilTilesCells g row r (c + 1) rest
        (((c * 64, r * 64), tile_type t rn b l) :: res.1, res.2)
    else soilTilesCells g row r (c + 1) rest

/-- Outer loop of `create_soil_tiles` over the rows.  `rs` is the suffix
of `g` starting at row `r`; a raise in one row stops the whole iteration. -/
def soilTilesRows (g : SoilGrid) : Nat → List (List Cell) → List SoilTileSprite × Bool
  | _, [] => ([], false)
  | r, row :: rest =>
    let res := soilTilesCells g row r 0 row
    if res.2 then (res.1, true)
    else
      let res2 := soilTilesRows g (r + 1) rest
      (res.1 ++ res2.1, res2.2)

/-- `SoilLayer.create_soil_tiles` (soil.py 211-269): empty the soil-tile
group, then for every Tilled cell create one tile whose variant is
`tile_type` of the four neighbour reads.  Returns the new sprite group
contents and whether an `IndexError` was raised mid-iteration. -/
def create_soil_tiles (g : SoilGrid) : List SoilTileSprite × Bool :=
  soilTilesRows g 0 g

/-! ## Soil layer state and operations -/

/-- The `SoilLayer` state that the claims concern: the flag grid, the
hit rects built at construction, the three sprite groups (soil tiles,
water overlay tiles, plants) and the rain flag.  `soilCoords` mirrors
`self.soil_coords`.  Sprites are recorded by pixel top-left; soil and
water tile surfaces are `TILE_SIZE`-square tiles of the asset set, so
every sprite rect is 64 x 64 (`TILE_SIZE = 64`, settings.py 19). -/
structure SoilState where
  grid : SoilGrid
  hitRects : List (Nat × Nat)
  soilSprites : List SoilTileSprite
  waterSprites : List (Nat × Nat)
  plants : List ((Nat × Nat) × String)
  soilCoords : List (Int × Int)
  raining : Bool
deriving Repr, DecidableEq

/-- `pygame.Rect(rx, ry, 64, 64).collidepoint(p)`: a point collides when
it lies inside the rect; the top and left edges count as inside, the
bottom and right edges do not. -/
def collide64 (rx ry : Nat) (p : Int × Int) : Bool :=
  decide ((rx : Int) ≤ p.1 ∧ p.1 < (rx : Int) + 64 ∧
          (ry : Int) ≤ p.2 ∧ p.2 < (ry : Int) + 64)

/-- `SoilLayer.create_soil_grid` (soil.py 112-123): one empty flag list
per tile of the ground image, then `"F"` appended for every tile of the
map's `Farmable` layer (given here as the characteristic function `farm`
of that layer's tile coordinates). -/
def create_soil_grid (rows cols : Nat) (farm : Nat → Nat → Bool) : SoilGrid :=
  (List.range rows).map fun r =>
    (List.range cols).map fun c => if farm r c then [SoilFlag.F] else []

/-- Inner loop of `create_hit_rects` over one row (`cs` is the suffix of
the row starting at column `c`): a 64 x 64 rect per cell containing `"F"`. -/
def hitRectsCells (r : Nat) : Nat → List Cell → List (Nat × Nat)
  | _, [] => []
  | c, cell :: rest =>
    if SoilFlag.F ∈ cell then (c * 64, r * 64) :: hitRectsCells r (c + 1) rest
    else hitRectsCells r (c + 1) rest

/-- Outer loop of `create_hit_rects` (soil.py 125-133), row-major. -/
def hitRectsRows : Nat → List (List Cell) → List (Nat × Nat)
  | _, [] => []
  | r, row :: rest => hitRectsCells r 0 row ++ hitRectsRows (r + 1) rest

/-- `SoilLayer.create_hit_rects`. -/
def create_hit_rects (g : SoilGrid) : List (Nat × Nat) := hitRectsRows 0 g

/-- Fresh `SoilLayer` (soil.py 79-110): build the grid and the hit rects;
all sprite groups start empty and no soil coords are recorded. -/
def initSoil (rows cols : Nat) (farm : Nat → Nat → Bool) (raining : Bool) : SoilState :=
  let g := create_soil_grid rows cols farm
  { grid := g
    hitRects := create_hit_rects g
    soilSprites := []
    waterSprites := []
    plants := []
    soilCoords := []
    raining := raining }

/-- Inner loop of `water_all` over one row: append `"W"` and create a
water tile for every cell that is Tilled and not yet Watered.  The first
component is exactly the transformed row, the second the overlay tiles
created, in column order. -/
def waterAllCells (r : Nat) : Nat → List Cell → List Cell × List (Nat × Nat)
  | _, [] => ([], [])
  | c, cell :: rest =>
    let res := waterAllCells r (c + 1) rest
    if SoilFlag.X ∈ cell ∧ SoilFlag.W ∉ cell then
      ((cell ++ [SoilFlag.W]) :: res.1, (c * 64, r * 64) :: res.2)
    else (cell :: res.1, res.2)

/-- Outer loop of `water_all`, row-major. -/
def waterAllRows : Nat → List (List Cell) → SoilGrid × List (Nat × Nat)
  | _, [] => ([], [])
  | r, row :: rest =>
    let res := waterAllCells r 0 row
    let res2 := waterAllRows (r + 1) rest
    (res.1 :: res2.1, res.2 ++ res2.2)

/-- `SoilLayer.water_all` (soil.py 161-170). -/
def water_all (s : SoilState) : SoilState :=
  let res := waterAllRows 0 s.grid
  { s with grid := res.1, waterSprites := s.waterSprites ++ res.2 }

/-- Loop body of `SoilLayer.get_hit` (soil.py 135-148) over the hit-rect
list `rects`.  For each rect containing the point: recover the cell
coordinates, and if the cell is Farmable append `"X"`, rebuild all soil
tiles, record the point, and water everything when raining.  The `Bool`
is true when an exception escaped (the `IndexError` of
`create_soil_tiles`, propagated out of `get_hit`, aborting the rest of
the loop); the first component is the state as mutated up to that point. -/
def getHitGo (p : Int × Int) : SoilState → List (Nat × Nat) → SoilState × Bool
  | s, [] => (s, false)
  | s, (rx, ry) :: rest =>
    if collide64 rx ry p then
      let x := rx / 64
      let y := ry / 64
      match cellAt s.grid y x with
      | none => (s, true)
      | some cell =>
        if SoilFlag.F ∈ cell then
          let g := modifyCell s.grid y x (fun cl => cl ++ [SoilFlag.X])
          let res := create_soil_tiles g
          let s := { s with grid := g, soilSprites := res.1 }
          if res.2 then (s, true)
          else
            let s := { s with soilCoords := s.soilCoords ++ [p] }
            let s := if s.raining then water_all s else s
            getHitGo p s rest
        else getHitGo p s rest
    else getHitGo p s rest

/-- `SoilLayer.get_hit(point)`.  (The `none` case of the cell lookup in
`getHitGo` models the `IndexError` Python would raise on
`self.grid[y][x]`; it is unreachable for states built by the program
because hit rects are created from grid cells.) -/
def get_hit (s : SoilState) (p : Int × Int) : SoilState × Bool :=
  getHitGo p s s.hitRects

/-- Loop body of `SoilLayer.water` (soil.py 150-159) over the snapshot of
the soil-sprite group: for every soil sprite whose rect contains the
point, append `"W"` to its cell — unconditionally — and create one water
overlay tile at the sprite's position. -/
def waterGo (p : Int × Int) : SoilState → List SoilTileSprite → SoilState
  | s, [] => s
  | s, ((rx, ry), _) :: rest =>
    if collide64 rx ry p then
      let s := { s with
        grid := modifyCell s.grid (ry / 64) (rx / 64) (fun cl => cl ++ [SoilFlag.W])
        waterSprites := s.waterSprites ++ [(rx, ry)] }
      waterGo p s rest
    else waterGo p s rest

/-- `SoilLayer.water(target_pos)`. -/
def water (s : SoilState) (p : Int × Int) : SoilState :=
  waterGo p s s.soilSprites

/-- Loop body of `SoilLayer.plant_seed` (soil.py 190-205) over the
soil-sprite snapshot: for every soil sprite whose rect contains the
point, if the cell is not already Planted, append `"P"` and construct a
`Plant` (recorded in `plants`; the constructor's asset loading is an
external collaborator, out of scope per spec section 1, and runs after
the flag append).  A sprite whose coordinates fall outside the grid
would raise `IndexError`; that is unreachable because soil sprites are
created from grid cells, and is modelled by stopping the loop. -/
def plantSeedGo (p : Int × Int) (seed : String) :
    SoilState → List SoilTileSprite → SoilState
  | s, [] => s
  | s, ((rx, ry), _) :: rest =>
    if collide64 rx ry p then
      let x := rx / 64
      let y := ry / 64
      match cellAt s.grid y x with
      | none => s
      | some cell =>
        if SoilFlag.P ∈ cell then plantSeedGo p seed s rest
        else
          let s := { s with
            grid := modifyCell s.grid y x (fun cl => cl ++ [SoilFlag.P])
            plants := s.plants ++ [((rx, ry), seed)] }
          plantSeedGo p seed s rest
    else plantSeedGo p seed s rest

/-- `SoilLayer.plant_seed(target_pos, seed)`. -/
def plant_seed (s : SoilState) (p : Int × Int) (seed : String) : SoilState :=
  plantSeedGo p seed s s.soilSprites

/-- A till (`get_hit`) or plant (`plant_seed`) call, as in claim C1. -/
inductive SoilOp where
  | till (p : Int × Int)
  | plant (p : Int × Int) (seed : String)

/-- Run a sequence of till/plant operations.  If a till raises, the
partially mutated state is kept (the exception leaves the layer in
exactly that state). -/
def runSoilOps (s : SoilState) : List SoilOp → SoilState
  | [] => s
  | .till p :: ops => runSoilOps (get_hit s p).1 ops
  | .plant p seed :: ops => runSoilOps (plant_seed s p seed) ops

/-! ## Mode manager (`src/core/state_manager.py`)

A registered state is a live instance of a `State` subclass; `Instance`
records the class name it was constructed from and a serial number so
that "same object" is expressible.  The registry is the insertion-ordered
dict `self.__states`. -/

/-- A constructed `State` instance. -/
structure Instance where
  cls : String
  id : Nat
deriving DecidableEq, Repr

/-- `StateManager`: registry dict, `__current_state`, `__last_state`, and
a serial counter for fresh instances. -/
structure Manager where
  states : List (String × Instance)
  current : Option Instance
  last : Option Instance
  nextId : Nat
deriving DecidableEq, Repr

/-- `key in dict` for a Python dict modelled as an insertion-ordered
association list. -/
def dictHas (d : List (String × α)) (k : String) : Bool :=
  d.any fun q => q.1 = k

/-- `dict[key]` lookup. -/
def dictGet (d : List (String × α)) (k : String) : Option α :=
  (d.find? fun q => q.1 = k).map Prod.snd

/-- `dict[key] = value`: replaces in place, keeping the key's original
position; appends at the end when the key is new (Python dict order). -/
def dictSet (d : List (String × α)) (k : String) (v : α) :
    List (String × α) :=
  if dictHas d k then d.map fun q => if q.1 = k then (k, v) else q
  else d ++ [(k, v)]

/-- `del dict[key]`. -/
def dictDel (d : List (String × α)) (k : String) : List (String × α) :=
  d.filter fun q => ¬q.1 = k

/-- The fresh manager of `StateManager.__init__` (state_manager.py 39-52). -/
def initManager : Manager := ⟨[], none, none, 0⟩

/-- Errors of the manager embedding.  `attributeError` is Python's
`AttributeError`: instances of `State` subclasses have no `__name__`
attribute (only the classes themselves do), so evaluating
`self.__current_state.__name__` raises. -/
inductive ManagerErr where
  | stateLoadError (last : Option Instance)
  | stateError (last : Option Instance)
  | attributeError
  | assertionError
deriving DecidableEq, Repr

/-- `StateManager.load_states(*states, force=...)` (state_manager.py
83-114): for each class, raise `StateLoadError` when the name is taken
and `force` is false, otherwise construct a fresh instance, store it
under the class name and call its `setup()` (which touches no manager
field).  A raise mid-loop keeps the classes already loaded; the second
component reports it. -/
def load_states (m : Manager) (classes : List String) (force : Bool) :
    Manager × Option ManagerErr :=
  match classes with
  | [] => (m, none)
  | cls :: rest =>
    if ¬force ∧ dictHas m.states cls then (m, some (.stateLoadError m.last))
    else
      let inst : Instance := ⟨cls, m.nextId⟩
      load_states
        { m with states := dictSet m.states cls inst, nextId := m.nextId + 1 }
        rest force

/-- `StateManager.unload_state(state_name, force=...)` (state_manager.py
116-169).  The guard of the `ActiveModeError` branch is
`not force and self.__current_state is not None and state_name == self.__current_state.__name__`;
its third conjunct reads `__name__` off a `State` *instance*, which
always raises `AttributeError`, so whenever a state is active and
`force` is false the call raises `AttributeError` — the documented
`StateError` (line 161) is unreachable.  On success returns the class of
the removed instance and the shrunk registry. -/
def unload_state (m : Manager) (name : String) (force : Bool) :
    Except ManagerErr (String × Manager) :=
  if ¬dictHas m.states name then .error (.stateLoadError m.last)
  else if ¬force ∧ m.current ≠ none then .error .attributeError
  else
    match dictGet m.states name with
    | none => .error (.stateLoadError m.last)
    | some inst => .ok (inst.cls, { m with states := dictDel m.states name })

/-- `StateManager.change_state(state_name)` (state_manager.py 236-256):
assert the name is registered, then `last := current; current := states[name]`. -/
def change_state (m : Manager) (name : String) : Except ManagerErr Manager :=
  match dictGet m.states name with
  | none => .error .assertionError
  | some inst => .ok { m with last := m.current, current := some inst }

/-- The two exceptions `update_state` can raise. -/
inductive UpdateExn where
  | exitStateError (last : Option Instance)
  | stateError (last : Option Instance)
deriving DecidableEq, Repr

/-- `StateManager.update_state()` (state_manager.py 258-283): raise
`ExitStateError(last_state=self.__last_state)` when a state is active,
else `StateError(last_state=self.__last_state)`.  The method only
raises, so the manager is returned untouched alongside the exception. -/
def update_state (m : Manager) : Manager × UpdateExn :=
  (m, if m.current.isSome then .exitStateError m.last else .stateError m.last)

/-- Result of `run_state`. -/
inductive RunResult where
  | ran (inst : Instance)
  | stateError (last : Option Instance)
deriving DecidableEq, Repr

/-- `StateManager.run_state()` (state_manager.py 285-305): run the active
instance, or raise `StateError` when there is none. -/
def run_state (m : Manager) : RunResult :=
  match m.current with
  | some inst => .ran inst
  | none => .stateError m.last

/-! ## Inventory selector (`ItemIterator`, utils.py 164-205) -/

/-- `ItemIterator`: the key sequence, cursor `index`, cached `selected`
element, cached `max_index`, and the quantity dict `inv`.  `index` and
`maxIndex` are Python ints (`maxIndex` can drift out of sync with the
sequence length — see `set_item`/`append`). -/
structure ItemIterator where
  seq : List String
  index : Int
  selected : String
  maxIndex : Int
  inv : List (String × Int)
deriving DecidableEq, Repr

/-- `ItemIterator.__init__(seq)`: cursor 0, selected `seq[0]` (an
`IndexError`, i.e. `none`, on an empty sequence), `max_index = len(seq) - 1`,
every key's quantity 1. -/
def ItemIterator.make (seq : List String) : Option ItemIterator :=
  match seq with
  | [] => none
  | s0 :: _ =>
    some ⟨seq, 0, s0, (seq.length : Int) - 1, seq.map fun k => (k, 1)⟩

/-- `ItemIterator.next` (utils.py 172-176): advance the cursor, wrap past
`max_index` to 0, reselect `seq[index]` (`none` on an `IndexError` from a
corrupted `max_index`). -/
def ItemIterator.next (it : ItemIterator) : Option ItemIterator :=
  let idx := it.index + 1
  let idx := if idx > it.maxIndex then 0 else idx
  (pyGet it.seq idx).map fun sel => { it with index := idx, selected := sel }

/-- `ItemIterator.append` (utils.py 184-187): push the element, reset its
quantity to 0, bump `max_index`. -/
def ItemIterator.append (it : ItemIterator) (element : String) : ItemIterator :=
  { it with
    seq := it.seq ++ [element]
    inv := dictSet it.inv element 0
    maxIndex := it.maxIndex + 1 }

/-- `ItemIterator.set_item` (utils.py 201-205): assign
`self.inv[item] = value` first; then, if the item is absent from the
sequence, `self.append(item)` (which resets the quantity to 0) and bump
`max_index` a second time. -/
def ItemIterator.set_item (it : ItemIterator) (item : String) (value : Int) :
    ItemIterator :=
  let it := { it with inv := dictSet it.inv item value }
  if item ∈ it.seq then it
  else
    let it := it.append item
    { it with maxIndex := it.maxIndex + 1 }

/-! ## Player tool orchestration (`src/entities/player.py`) -/

/-- `PLAYER_TOOL_OFFSET` (settings.py 34-39).  The dict has exactly the
keys `left`, `right`, `up`, `down`, and `direction_str` only ever holds
one of them, so the final branch is the `down` entry. -/
def PLAYER_TOOL_OFFSET (d : String) : Int × Int :=
  if d = "left" then (-50, 40)
  else if d = "right" then (50, 40)
  else if d = "up" then (0, -10)
  else (0, 50)

/-- The player fields the tool/seed claims touch: the inventory selector,
facing label, integer rect centre, direction vector and the active flag
of the `seed_use` timer. -/
structure PlayerState where
  inventory : ItemIterator
  directionStr : String
  rectCenter : Int × Int
  direction : Int × Int
  seedUseActive : Bool
deriving DecidableEq, Repr

/-- `Player.get_target_pos` (player.py 49-50):
`self.rect.center + PLAYER_TOOL_OFFSET[self.direction_str]`. -/
def get_target_pos (pl : PlayerState) : Int × Int :=
  (pl.rectCenter.1 + (PLAYER_TOOL_OFFSET pl.directionStr).1,
   pl.rectCenter.2 + (PLAYER_TOOL_OFFSET pl.directionStr).2)

/-- `Player.use_tool` (player.py 52-66), the action bound to the
`tool_use` timer.  `hoe` tills at the target point (an escaping
`IndexError` is the returned `Bool`); `axe` damages external tree
sprites, which live outside the embedded state; `water` waters at the
target point; a seed kind (`corn`/`tomato`) activates the `seed_use`
timer and zeroes the direction vector. -/
def use_tool (pl : PlayerState) (s : SoilState) :
    (PlayerState × SoilState) × Bool :=
  if pl.inventory.selected = "hoe" then
    let res := get_hit s (get_target_pos pl)
    ((pl, res.1), res.2)
  else if pl.inventory.selected = "axe" then ((pl, s), false)
  else if pl.inventory.selected = "water" then
    ((pl, water s (get_target_pos pl)), false)
  else if pl.inventory.selected = "corn" ∨ pl.inventory.selected = "tomato" then
    (({ pl with seedUseActive := true, direction := (0, 0) }, s), false)
  else ((pl, s), false)

/-- Exceptions `Player.use_seed` can raise. -/
inductive PyCallErr where
  | typeError
  | keyError
deriving DecidableEq, Repr

/-- Positional parameters of `SoilLayer.plant_seed` besides `self`
(soil.py 190: `target_pos`, `seed`). -/
def plant_seed_arity : Nat := 2

/-- Positional arguments besides the receiver at the call in
`Player.use_seed` (player.py 73-75: `self.get_target_pos()`,
`self.inventory.selected`, `self`). -/
def use_seed_call_args : Nat := 3

/-- `Player.use_seed` (player.py 68-76), the action bound to the
`seed_use` timer: when the selected item's quantity is positive, call
`self.soil_layer.plant_seed(self.get_target_pos(), self.inventory.selected, self)`.
Python checks the arity of that call before running the callee's body;
three arguments against a two-parameter method is a `TypeError`
(`plant_seed() takes 3 positional arguments but 4 were given`), modelled
by the explicit arity comparison. -/
def use_seed (pl : PlayerState) (s : SoilState) :
    Except PyCallErr (PlayerState × SoilState) :=
  match dictGet pl.inventory.inv pl.inventory.selected with
  | none => .error .keyError
  | some q =>
    if q > 0 then
      if use_seed_call_args = plant_seed_arity then
        .ok (pl, plant_seed s (get_target_pos pl) pl.inventory.selected)
      else .error .typeError
    else .ok (pl, s)

/-! ## Claims -/

/-- C2: the tile-variant derivation is a pure function of the four
neighbour booleans `(t, r, b, l)`, and on each of the 16 combinations the
cascade of `create_soil_tiles` produces exactly the variant of the spec's
section-4.2 table (`alone` for no Tilled neighbour, `all-sides` for all
four, `horizontal-run` for exactly left and right, `no-left` for t, b, r
without l, and so on): the code's `tile_type` equals the asset key of the
spec table's variant on every combination, exactly one table guard fires
on every combination that has a Tilled neighbour and none on the
neighbour-free one, and the sixteen variants name sixteen distinct asset
keys, so no combination is unmapped or mapped to two variants. -/
theorem tile_variant_matches_spec_table :
    (∀ t r b l : Bool, tile_type t r b l = assetKey (specVariant t r b l)) ∧
    (∀ t r b l : Bool,
      (specGuards t r b l).count true = if t || r || b || l then 1 else 0) ∧
    (allSpecVariants.map assetKey).Nodup :=
  ⟨by decide, by decide, by decide⟩

/-- C9 (code bug): `set_item` on a key absent from the sequence leaves
the key's stored quantity at 0, not at the requested value: the method
assigns `self.inv[item] = value` first and only then appends, and
`ItemIterator.append` resets the quantity to 0 (it also bumps
`max_index` a second time, leaving it at 2 for a 2-element sequence).
Concretely, on `ItemIterator(["hoe"])`, `set_item("corn", 5)` appends
`"corn"` but stores quantity 0 where the claim requires 5. -/
theorem set_item_absent_key_quantity_zero :
    (ItemIterator.make ["hoe"]).map
        (fun it =>
          ((it.set_item "corn" 5).seq, dictGet (it.set_item "corn" 5).inv "corn",
            (it.set_item "corn" 5).maxIndex)) =
      some (["hoe", "corn"], some 0, 2) := by decide

/-- C6 (code bug): with the inventory built exactly as in
`Player.__init__` (player.py 39-41) and the cursor advanced to the seed
kind `corn` (quantity 5 > 0), `use_tool` does activate the `seed_use`
timer, but the timer's bound action `use_seed` then raises `TypeError`
instead of completing a `plant_seed` call: the call at player.py 73-75
passes three positional arguments to the two-parameter
`SoilLayer.plant_seed`. -/
theorem use_seed_raises_type_error :
    (do
      let it0 ← ItemIterator.make ["hoe", "axe", "water", "corn", "tomato"]
      let it1 := (it0.set_item "corn" 5).set_item "tomato" 5
      let it2 ← it1.next
      let it3 ← it2.next
      let it4 ← it3.next
      let pl : PlayerState := ⟨it4, "down", (96, 46), (0, 0), false⟩
      let soil := initSoil 3 3 (fun r c => r == 1 && c == 1) false
      let res := use_tool pl soil
      pure (it4.selected, dictGet it4.inv "corn", res.1.1.seedUseActive,
        use_seed res.1.1 res.1.2)) =
      some ("corn", some 5, true,
        (Except.error PyCallErr.typeError : Except PyCallErr (PlayerState × SoilState))) := by
  rfl

/-- C4 (code bug): `unload_state` does raise `StateLoadError` when the
name is not registered, and removes and returns the class when no mode
is active — but whenever any mode is active and `force` is false it
raises `AttributeError`, because the guard at state_manager.py 156-160
evaluates `self.__current_state.__name__` on a `State` instance, which
has no `__name__` attribute.  With `"A"` and `"B"` loaded and `"A"`
active: unloading `"B"` raises `AttributeError` instead of removing it,
and unloading the active `"A"` raises `AttributeError` instead of the
documented `StateError`. -/
theorem unload_state_raises_attribute_error :
    change_state (load_states initManager ["A", "B"] false).1 "A" =
      .ok ⟨[("A", ⟨"A", 0⟩), ("B", ⟨"B", 1⟩)], some ⟨"A", 0⟩, none, 2⟩ ∧
    unload_state ⟨[("A", ⟨"A", 0⟩), ("B", ⟨"B", 1⟩)], some ⟨"A", 0⟩, none, 2⟩
      "B" false = .error .attributeError ∧
    unload_state ⟨[("A", ⟨"A", 0⟩), ("B", ⟨"B", 1⟩)], some ⟨"A", 0⟩, none, 2⟩
      "A" false = .error .attributeError ∧
    unload_state ⟨[("A", ⟨"A", 0⟩), ("B", ⟨"B", 1⟩)], some ⟨"A", 0⟩, none, 2⟩
      "C" false = .error (.stateLoadError none) ∧
    unload_state (load_states initManager ["A", "B"] false).1 "B" false =
      .ok ("B", ⟨[("A", ⟨"A", 0⟩)], none, none, 2⟩) := by
  exact ⟨rfl, rfl, rfl, rfl, rfl⟩

/-- C5: `update_state` raises `ExitStateError` carrying the
previous-mode reference whenever a mode is active, raises `StateError`
(also carrying it) otherwise, touches no manager field in either case,
the two exceptions are distinct kinds, and `change_state` records the
prior active mode as `last` — so straight after a first activation the
carried reference is `None`. -/
theorem update_state_signals (m : Manager) :
    (update_state m).1 = m ∧
    (∀ i, m.current = some i → (update_state m).2 = .exitStateError m.last) ∧
    (m.current = none → (update_state m).2 = .stateError m.last) ∧
    (∀ m' name m2, change_state m' name = .ok m2 → m2.last = m'.current) ∧
    (∀ x y, UpdateExn.exitStateError x ≠ UpdateExn.stateError y) := by
  refine ⟨rfl, ?_, ?_, ?_, fun x y h => UpdateExn.noConfusion h⟩
  · intro i hi
    simp [update_state, hi]
  · intro hi
    simp [update_state, hi]
  · intro m' name m2 h
    unfold change_state at h
    cases hd : dictGet m'.states name with
    | none => rw [hd] at h; exact Except.noConfusion h
    | some inst =>
      rw [hd] at h
      cases h
      rfl

/-- Witness for C5 at concrete managers: after loading and activating
`"A"` on a fresh manager the raise is `ExitStateError` carrying `None`
(no prior activation), and on the fresh manager it is `StateError`. -/
theorem update_state_signals_witness :
    (update_state ⟨[("A", ⟨"A", 0⟩)], some ⟨"A", 0⟩, none, 1⟩).2 =
      .exitStateError none ∧
    (update_state initManager).2 = .stateError none :=
  ⟨(update_state_signals ⟨[("A", ⟨"A", 0⟩)], some ⟨"A", 0⟩, none, 1⟩).2.1 ⟨"A", 0⟩ rfl,
   (update_state_signals initManager).2.2.1 rfl⟩

/-- C8 counterexample: load `"A"` on a fresh manager and activate it;
`update_state` raises `ExitStateError` and leaves the manager untouched,
and the next `run_state` — with no further `change_state` — runs mode
`"A"` again instead of signalling `StateError`: `update_state` never
clears `__current_state` (state_manager.py 275-283 only raises). -/
theorem run_state_after_exit_counterexample :
    let mA : Manager := ⟨[("A", ⟨"A", 0⟩)], some ⟨"A", 0⟩, none, 1⟩
    change_state (load_states initManager ["A"] false).1 "A" = .ok mA ∧
    (update_state mA).1 = mA ∧
    (update_state mA).2 = .exitStateError none ∧
    run_state mA = .ran ⟨"A", 0⟩ ∧
    run_state mA ≠ .stateError none := by
  refine ⟨rfl, rfl, rfl, rfl, ?_⟩
  intro h
  exact RunResult.noConfusion h

/-- C8 amended: `update_state` (mode exit) leaves the manager, in
particular its active pointer, unchanged, so the next `run_state` runs
the still-active mode again; `run_state` signals `StateError` exactly in
the managers whose active pointer is `None` (e.g. before any
activation), not after a mode exit. -/
theorem run_state_after_exit (m : Manager) :
    (update_state m).1 = m ∧
    (∀ i, m.current = some i → run_state (update_state m).1 = .ran i) ∧
    (m.current = none → run_state (update_state m).1 = .stateError m.last) := by
  refine ⟨rfl, ?_, ?_⟩
  · intro i hi
    simp [run_state, update_state, hi]
  · intro hi
    simp [run_state, update_state, hi]

/-- Witness for C8's amended claim at concrete managers: with `"A"`
active the post-exit `run_state` runs `"A"`; on the fresh manager it
signals `StateError`. -/
theorem run_state_after_exit_witness :
    run_state (update_state ⟨[("A", ⟨"A", 0⟩)], some ⟨"A", 0⟩, none, 1⟩).1 =
      .ran ⟨"A", 0⟩ ∧
    run_state (update_state initManager).1 = .stateError none :=
  ⟨(run_state_after_exit ⟨[("A", ⟨"A", 0⟩)], some ⟨"A", 0⟩, none, 1⟩).2.1 ⟨"A", 0⟩ rfl,
   (run_state_after_exit initManager).2.2 rfl⟩

/-- C10: `load_states` never modifies the manager's active or previous
mode pointers: for every manager, class list and `force` flag, the
current-state and last-state references after the call (including after
a mid-loop `StateLoadError`, whose partially mutated manager is the
returned one) are the very values held before it; in particular
force-overwriting the registry entry under the active mode's name leaves
the manager still running the old instance until `change_state`. -/
theorem load_states_preserves_active_pointers (m : Manager)
    (classes : List String) (force : Bool) :
    (load_states m classes force).1.current = m.current ∧
    (load_states m classes force).1.last = m.last := by
  induction classes generalizing m with
  | nil => exact ⟨rfl, rfl⟩
  | cons cls rest ih =>
    unfold load_states
    split
    · exact ⟨rfl, rfl⟩
    · exact ih _

/-- C7 counterexample: till the single farmable cell of a 3 x 3 grid and
water it twice at the same point.  The second `water` call finds the cell
already Watered, yet appends a second `"W"` to it (the grid changes) and
creates a second water-overlay tile: `SoilLayer.water` has no
already-Watered guard (soil.py 150-159 appends unconditionally, unlike
`water_all`). -/
theorem water_already_watered_counterexample :
    let s0 := (get_hit (initSoil 3 3 (fun r c => r == 1 && c == 1) false) (70, 70)).1
    let s1 := water s0 (70, 70)
    cellAt s1.grid 1 1 = some [SoilFlag.F, SoilFlag.X, SoilFlag.W] ∧
    s1.waterSprites.length = 1 ∧
    cellAt (water s1 (70, 70)).grid 1 1 =
      some [SoilFlag.F, SoilFlag.X, SoilFlag.W, SoilFlag.W] ∧
    (water s1 (70, 70)).grid ≠ s1.grid ∧
    (water s1 (70, 70)).waterSprites.length = 2 := by
  exact ⟨rfl, rfl, rfl, by decide, rfl⟩

/-- The soil sprites whose 64 x 64 rect contains the point — the sprites
the loop bodies of `water` and `plant_seed` act on. -/
def collidingSprites (s : SoilState) (p : Int × Int) : List SoilTileSprite :=
  s.soilSprites.filter fun q => collide64 q.1.1 q.1.2 p

theorem waterGo_events (p : Int × Int) (l : List SoilTileSprite) :
    ∀ s : SoilState,
      (waterGo p s l).waterSprites.length =
        s.waterSprites.length + (l.filter fun q => collide64 q.1.1 q.1.2 p).length := by
  induction l with
  | nil => intro s; simp [waterGo]
  | cons q rest ih =>
    intro s
    obtain ⟨⟨rx, ry⟩, key⟩ := q
    by_cases h : collide64 rx ry p
    · simp only [waterGo, h, if_pos, List.filter_cons, ih]
      simp [List.length_append]
      omega
    · simp only [waterGo, h, if_neg, List.filter_cons]
      simpa [h] using ih s

theorem isSome_cellAt_modifyCell (g : SoilGrid) (r c : Nat) (f : Cell → Cell)
    (r' c' : Nat) :
    (cellAt (modifyCell g r c f) r' c').isSome = (cellAt g r' c').isSome := by
  rcases cellAt_modifyCell g r c f r' c' with h | ⟨_, _, h⟩
  · rw [h]
  · rw [h]; cases cellAt g r' c' <;> rfl

/-- Along a `water` loop a grid cell only ever grows by appended flags. -/
theorem waterGo_grid_grows (p : Int × Int) (l : List SoilTileSprite) :
    ∀ (s : SoilState) (r c : Nat) (cell : Cell),
      cellAt s.grid r c = some cell →
      ∃ tail, cellAt (waterGo p s l).grid r c = some (cell ++ tail) := by
  induction l with
  | nil =>
    intro s r c cell h
    exact ⟨[], by simpa [waterGo] using h⟩
  | cons q rest ih =>
    intro s r c cell h
    obtain ⟨⟨rx, ry⟩, key⟩ := q
    by_cases hc : collide64 rx ry p
    · simp only [waterGo, hc, if_pos]
      rcases cellAt_modifyCell s.grid (ry / 64) (rx / 64)
          (fun cl => cl ++ [SoilFlag.W]) r c with heq | ⟨_, _, heq⟩
      · exact ih { s with
            grid := modifyCell s.grid (ry / 64) (rx / 64) fun cl => cl ++ [SoilFlag.W]
            waterSprites := s.waterSprites ++ [(rx, ry)] } r c cell (heq.trans h)
      · rw [h] at heq
        simp only [Option.map_some'] at heq
        obtain ⟨tail, ht⟩ := ih { s with
            grid := modifyCell s.grid (ry / 64) (rx / 64) fun cl => cl ++ [SoilFlag.W]
            waterSprites := s.waterSprites ++ [(rx, ry)] } r c (cell ++ [SoilFlag.W]) heq
        exact ⟨[SoilFlag.W] ++ tail, by simpa using ht⟩
    · simp only [waterGo, hc, if_neg]
      exact ih s r c cell h

theorem waterGo_waters (p : Int × Int) (l : List SoilTileSprite) :
    ∀ (s : SoilState) (rx ry : Nat) (key : String),
      ((rx, ry), key) ∈ l → collide64 rx ry p = true →
      (cellAt s.grid (ry / 64) (rx / 64)).isSome →
      ∃ cell, cellAt (waterGo p s l).grid (ry / 64) (rx / 64) = some cell ∧
        SoilFlag.W ∈ cell := by
  induction l with
  | nil => intro s rx ry key h; exact absurd h (List.not_mem_nil _)
  | cons q rest ih =>
    intro s rx ry key hmem hcol hsome
    obtain ⟨⟨qx, qy⟩, qkey⟩ := q
    rcases List.mem_cons.mp hmem with heq | hrest
    · cases heq
      simp only [waterGo, hcol, if_pos]
      obtain ⟨cell, hcell⟩ := Option.isSome_iff_exists.mp hsome
      have hmod := cellAt_modifyCell_self s.grid (ry / 64) (rx / 64)
        (fun cl => cl ++ [SoilFlag.W])
      rw [hcell] at hmod
      simp only [Option.map_some'] at hmod
      obtain ⟨tail, ht⟩ := waterGo_grid_grows p rest { s with
          grid := modifyCell s.grid (ry / 64) (rx / 64) fun cl => cl ++ [SoilFlag.W]
          waterSprites := s.waterSprites ++ [(rx, ry)] } (ry / 64) (rx / 64)
        (cell ++ [SoilFlag.W]) hmod
      exact ⟨cell ++ [SoilFlag.W] ++ tail, ht, by simp⟩
    · by_cases hc : collide64 qx qy p
      · simp only [waterGo, hc, if_pos]
        refine ih { s with
            grid := modifyCell s.grid (qy / 64) (qx / 64) fun cl => cl ++ [SoilFlag.W]
            waterSprites := s.waterSprites ++ [(qx, qy)] } rx ry key hrest hcol ?_
        rw [show ({ s with
            grid := modifyCell s.grid (qy / 64) (qx / 64) fun cl => cl ++ [SoilFlag.W]
            waterSprites := s.waterSprites ++ [(qx, qy)] } : SoilState).grid
          = modifyCell s.grid (qy / 64) (qx / 64) fun cl => cl ++ [SoilFlag.W] from rfl]
        rw [isSome_cellAt_modifyCell]
        exact hsome
      · simp only [waterGo, hc, if_neg]
        exact ih s rx ry key hrest hcol hsome

/-- C7 amended: `water(point)` appends a Watered flag and emits exactly
one water-overlay creation event for every soil sprite (Tilled cell)
whose bounds contain the point, unconditionally — an already-Watered
cell is watered and gains an overlay event again (its flag list grows by
a duplicate `"W"`), rather than being left unchanged.  In particular the
overlay-event count grows by exactly the number of colliding Tilled
cells, and every colliding Tilled cell ends up with the Watered flag. -/
theorem water_appends_unconditionally (s : SoilState) (p : Int × Int) :
    (water s p).waterSprites.length =
      s.waterSprites.length + (collidingSprites s p).length ∧
    ∀ rx ry key, ((rx, ry), key) ∈ s.soilSprites → collide64 rx ry p = true →
      (cellAt s.grid (ry / 64) (rx / 64)).isSome →
      ∃ cell, cellAt (water s p).grid (ry / 64) (rx / 64) = some cell ∧
        SoilFlag.W ∈ cell :=
  ⟨waterGo_events p s.soilSprites s,
   fun rx ry key hmem hcol hsome => waterGo_waters p s.soilSprites s rx ry key hmem hcol hsome⟩

/-- Witness for C7's amended claim: on the tilled 3 x 3 grid of the
counterexample, watering at (70, 70) adds exactly one overlay event and
leaves the Watered flag in the colliding cell. -/
theorem water_appends_unconditionally_witness :
    let s0 := (get_hit (initSoil 3 3 (fun r c => r == 1 && c == 1) false) (70, 70)).1
    (water s0 (70, 70)).waterSprites.length =
      s0.waterSprites.length + (collidingSprites s0 (70, 70)).length ∧
    ∃ cell, cellAt (water s0 (70, 70)).grid (64 / 64) (64 / 64) = some cell ∧
      SoilFlag.W ∈ cell := by
  refine ⟨(water_appends_unconditionally _ (70, 70)).1, ?_⟩
  exact (water_appends_unconditionally _ (70, 70)).2 64 64 "o" (by decide) (by decide)
    (by decide)

theorem pyGet_natCast (xs : List α) (n : Nat) : pyGet xs (n : Int) = xs[n]? := by
  unfold pyGet
  rw [if_pos (Int.natCast_nonneg n), Int.toNat_natCast]

theorem pyGet_neg_one (xs : List α) (h : 1 ≤ xs.length) :
    pyGet xs (-1) = xs[xs.length - 1]? := by
  unfold pyGet
  rw [if_neg (by decide), if_pos (by simpa using h)]
  norm_num

theorem pyGet_pred_some (xs : List α) (n : Nat) (hn : n < xs.length) :
    ∃ a, pyGet xs ((n : Int) - 1) = some a ∧ a ∈ xs := by
  cases n with
  | zero =>
    rw [show ((0 : Nat) : Int) - 1 = -1 from by decide, pyGet_neg_one xs (by omega)]
    have hlt : xs.length - 1 < xs.length := by omega
    obtain ⟨a, ha⟩ : ∃ a, xs[xs.length - 1]? = some a :=
      ⟨xs[xs.length - 1], List.getElem?_eq_getElem hlt⟩
    exact ⟨a, ha, List.getElem?_mem ha⟩
  | succ m =>
    rw [show ((m + 1 : Nat) : Int) - 1 = (m : Int) from by omega, pyGet_natCast]
    have hlt : m < xs.length := by omega
    obtain ⟨a, ha⟩ : ∃ a, xs[m]? = some a :=
      ⟨xs[m], List.getElem?_eq_getElem hlt⟩
    exact ⟨a, ha, List.getElem?_mem ha⟩

theorem pyGet_succ (xs : List α) (n : Nat) :
    pyGet xs ((n : Int) + 1) = xs[n + 1]? := by
  rw [show ((n : Int) + 1) = ((n + 1 : Nat) : Int) from by omega, pyGet_natCast]

/-- For a rectangular grid, the four neighbour reads of `create_soil_tiles`
all succeed exactly when the cell has a row below it and a column to its
right: the top and left reads can wrap (index `-1`) but never raise, the
bottom and right reads raise (`IndexError`) beyond the edge. -/
theorem neighborsAt_eq_none_iff (g : SoilGrid) (cols : Nat)
    (hrect : ∀ row ∈ g, row.length = cols)
    (row : List Cell) (r c : Nat) (hrow : g[r]? = some row) (hc : c < cols) :
    neighborsAt g row r c = none ↔ (g.length ≤ r + 1 ∨ cols ≤ c + 1) := by
  have hrlen : r < g.length := (List.getElem?_eq_some.mp hrow).1
  have hrowlen : row.length = cols := hrect row (List.getElem?_mem hrow)
  constructor
  · intro hnone
    by_contra hgood
    push_neg at hgood
    obtain ⟨h1, h2⟩ := hgood
    obtain ⟨tRow, htr, htrm⟩ := pyGet_pred_some g r hrlen
    have htrc : ∃ a, pyGet tRow (c : Int) = some a := by
      rw [pyGet_natCast]
      have hlt : c < tRow.length := by rw [hrect tRow htrm]; omega
      exact ⟨tRow[c], List.getElem?_eq_getElem hlt⟩
    obtain ⟨tCell, htc⟩ := htrc
    have hbr : ∃ a, pyGet g ((r : Int) + 1) = some a ∧ a ∈ g := by
      rw [pyGet_succ]
      have hlt : r + 1 < g.length := by omega
      exact ⟨g[r + 1], List.getElem?_eq_getElem hlt,
        List.getElem?_mem (List.getElem?_eq_getElem hlt)⟩
    obtain ⟨bRow, hbrw, hbrm⟩ := hbr
    have hbc : ∃ a, pyGet bRow (c : Int) = some a := by
      rw [pyGet_natCast]
      have hlt : c < bRow.length := by rw [hrect bRow hbrm]; omega
      exact ⟨bRow[c], List.getElem?_eq_getElem hlt⟩
    obtain ⟨bCell, hbcw⟩ := hbc
    have hrc : ∃ a, pyGet row ((c : Int) + 1) = some a := by
      rw [pyGet_succ]
      have hlt : c + 1 < row.length := by omega
      exact ⟨row[c + 1], List.getElem?_eq_getElem hlt⟩
    obtain ⟨rCell, hrcw⟩ := hrc
    obtain ⟨lCell, hlcw, _⟩ := pyGet_pred_some row c (by omega)
    simp [neighborsAt, htr, htc, hbrw, hbcw, hrcw, hlcw] at hnone
  · intro hbad
    rcases hbad with hb | hr
    · have hnp : pyGet g ((r : Int) + 1) = none := by
        rw [pyGet_succ]
        exact List.getElem?_eq_none hb
      rcases htr : pyGet g ((r : Int) - 1) with _ | tRow
      · simp [neighborsAt, htr]
      · rcases htc : pyGet tRow (c : Int) with _ | tCell
        · simp [neighborsAt, htr, htc]
        · simp [neighborsAt, htr, htc, hnp]
    · have hnp : pyGet row ((c : Int) + 1) = none := by
        rw [pyGet_succ]
        exact List.getElem?_eq_none (by omega)
      rcases htr : pyGet g ((r : Int) - 1) with _ | tRow
      · simp [neighborsAt, htr]
      · rcases htc : pyGet tRow (c : Int) with _ | tCell
        · simp [neighborsAt, htr, htc]
        · rcases hbr : pyGet g ((r : Int) + 1) with _ | bRow
          · simp [neighborsAt, htr, htc, hbr]
          · rcases hbc : pyGet bRow (c : Int) with _ | bCell
            · simp [neighborsAt, htr, htc, hbr, hbc]
            · simp [neighborsAt, htr, htc, hbr, hbc, hnp]

theorem soilTilesCells_snd (g : SoilGrid) (cols : Nat)
    (hrect : ∀ row ∈ g, row.length = cols)
    (row : List Cell) (r : Nat) (hrow : g[r]? = some row) :
    ∀ (cs : List Cell) (c : Nat), (∀ k, cs[k]? = row[c + k]?) →
      ((soilTilesCells g row r c cs).2 = true ↔
        ∃ k cell, cs[k]? = some cell ∧ SoilFlag.X ∈ cell ∧
          (g.length ≤ r + 1 ∨ cols ≤ c + k + 1)) := by
  intro cs
  induction cs with
  | nil => intro c hsuf; simp [soilTilesCells]
  | cons cell rest ih =>
    intro c hsuf
    have hrowlen : row.length = cols := hrect row (List.getElem?_mem hrow)
    have hcell : row[c]? = some cell := by simpa using (hsuf 0).symm
    have hc : c < cols := by
      have := (List.getElem?_eq_some.mp hcell.symm.symm).1
      omega
    have hsuf' : ∀ k, rest[k]? = row[c + 1 + k]? := by
      intro k
      have := hsuf (k + 1)
      simpa [show c + (k + 1) = c + 1 + k from by omega] using this
    by_cases hX : SoilFlag.X ∈ cell
    · rcases hnb : neighborsAt g row r c with _ | tuple
      · have hbad := (neighborsAt_eq_none_iff g cols hrect row r c hrow hc).mp hnb
        simp only [soilTilesCells, hX, if_pos, hnb]
        exact iff_of_true trivial ⟨0, cell, by simp, hX, by omega⟩
      · have hnbad : ¬(g.length ≤ r + 1 ∨ cols ≤ c + 1) := by
          intro hbad
          rw [(neighborsAt_eq_none_iff g cols hrect row r c hrow hc).mpr hbad] at hnb
          exact Option.noConfusion hnb
        obtain ⟨t, rn, b, l⟩ := tuple
        simp only [soilTilesCells, hX, if_pos, hnb]
        rw [ih (c + 1) hsuf']
        constructor
        · rintro ⟨k, cell', h1, h2, h3⟩
          exact ⟨k + 1, cell', by simpa using h1, h2, by omega⟩
        · rintro ⟨k, cell', h1, h2, h3⟩
          cases k with
          | zero =>
            have : cell' = cell := by simpa using h1.symm
            subst this
            exact absurd (by omega) hnbad
          | succ k =>
            exact ⟨k, cell', by simpa using h1, h2, by omega⟩
    · simp only [soilTilesCells, hX, if_neg, reduceIte]
      rw [ih (c + 1) hsuf']
      constructor
      · rintro ⟨k, cell', h1, h2, h3⟩
        exact ⟨k + 1, cell', by simpa using h1, h2, by omega⟩
      · rintro ⟨k, cell', h1, h2, h3⟩
        cases k with
        | zero =>
          have : cell' = cell := by simpa using h1.symm
          subst this
          exact absurd h2 hX
        | succ k =>
          exact ⟨k, cell', by simpa using h1, h2, by omega⟩

theorem soilTilesRows_snd (g : SoilGrid) (cols : Nat)
    (hrect : ∀ row ∈ g, row.length = cols) :
    ∀ (rs : List (List Cell)) (r : Nat), (∀ k, rs[k]? = g[r + k]?) →
      ((soilTilesRows g r rs).2 = true ↔
        ∃ k row c cell, rs[k]? = some row ∧ row[c]? = some cell ∧
          SoilFlag.X ∈ cell ∧ (g.length ≤ r + k + 1 ∨ cols ≤ c + 1)) := by
  intro rs
  induction rs with
  | nil => intro r hsuf; simp [soilTilesRows]
  | cons row rest ih =>
    intro r hsuf
    have hrow : g[r]? = some row := by simpa using (hsuf 0).symm
    have hcells := soilTilesCells_snd g cols hrect row r hrow row 0 fun k => by simp
    have hsuf' : ∀ k, rest[k]? = g[r + 1 + k]? := by
      intro k
      have := hsuf (k + 1)
      simpa [show r + (k + 1) = r + 1 + k from by omega] using this
    by_cases hres : (soilTilesCells g row r 0 row).2 = true
    · simp only [soilTilesRows, hres, if_pos]
      obtain ⟨k, cell, h1, h2, h3⟩ := hcells.mp hres
      exact iff_of_true trivial ⟨0, row, k, cell, by simp, h1, h2, by omega⟩
    · simp only [soilTilesRows, hres, if_neg, Bool.false_eq_true, reduceIte]
      rw [ih (r + 1) hsuf']
      constructor
      · rintro ⟨k, row', c, cell, h1, h2, h3, h4⟩
        exact ⟨k + 1, row', c, cell, by simpa using h1, h2, h3, by omega⟩
      · rintro ⟨k, row', c, cell, h1, h2, h3, h4⟩
        cases k with
        | zero =>
          have : row' = row := by simpa using h1.symm
          subst this
          exact absurd (hcells.mpr ⟨c, cell, h2, h3, by omega⟩) hres
        | succ k =>
          exact ⟨k, row', c, cell, by simpa using h1, h2, h3, by omega⟩

/-- C3 counterexample: the recomputation does not treat out-of-bounds
neighbours as not-Tilled, can read a wrapped-around negative index, and
does raise.  On a 1 x 1 grid whose only cell is Tilled the
bottom-neighbour read `grid[1]` raises `IndexError` before any tile is
made.  On a 2 x 2 grid with the first column Tilled, the cell (0,0)'s
top-neighbour read is `grid[-1]`, which wraps to the *last* row (Tilled),
so the created tile has variant `"tb"` where out-of-bounds-as-not-Tilled
semantics require `"t"`; iteration then raises on the last-row cell. -/
theorem create_soil_tiles_oob_counterexample :
    create_soil_tiles [[[SoilFlag.F, SoilFlag.X]]] = ([], true) ∧
    create_soil_tiles
        [[[SoilFlag.F, SoilFlag.X], [SoilFlag.F]],
         [[SoilFlag.F, SoilFlag.X], []]] =
      ([((0, 0), "tb")], true) ∧
    tile_type false false true false = "t" := by
  exact ⟨rfl, rfl, rfl⟩

/-- C3 amended: during full tile-variant recomputation the neighbour
reads follow Python list indexing — a top or left neighbour beyond the
edge is read wrapped-around from the last row or column (never raising),
while a bottom or right neighbour beyond the edge raises `IndexError` —
so on a rectangular grid the recomputation completes without raising if
and only if no Tilled cell lies in the last row or the last column. -/
theorem create_soil_tiles_raises_iff (g : SoilGrid) (cols : Nat)
    (hrect : ∀ row ∈ g, row.length = cols) :
    (create_soil_tiles g).2 = true ↔
      ∃ r c cell, cellAt g r c = some cell ∧ SoilFlag.X ∈ cell ∧
        (g.length ≤ r + 1 ∨ cols ≤ c + 1) := by
  rw [create_soil_tiles, soilTilesRows_snd g cols hrect g 0 fun k => by simp]
  constructor
  · rintro ⟨k, row, c, cell, h1, h2, h3, h4⟩
    refine ⟨k, c, cell, ?_, h3, by omega⟩
    rw [cellAt, h1, Option.some_bind, h2]
  · rintro ⟨r, c, cell, h1, h2, h3⟩
    rw [cellAt] at h1
    cases hrw : g[r]? with
    | none => rw [hrw, Option.none_bind] at h1; exact Option.noConfusion h1
    | some row =>
      rw [hrw, Option.some_bind] at h1
      exact ⟨r, row, c, cell, hrw, h1, h2, by omega⟩

/-- Witness for C3's amended claim, with the rectangularity hypothesis
discharged on a concrete grid: the 1 x 1 grid whose only cell is Tilled
has a Tilled cell in its last row, so the recomputation raises. -/
theorem create_soil_tiles_raises_iff_witness :
    (create_soil_tiles [[[SoilFlag.X]]]).2 = true :=
  (create_soil_tiles_raises_iff [[[SoilFlag.X]]] 1 (by decide)).mpr
    ⟨0, 0, [SoilFlag.X], rfl, by decide, by omega⟩

/-! ## The flag-chain invariant (claim C1) -/

/-- The flag chain of one cell: Planted implies Tilled implies Farmable. -/
def ChainCell (cell : Cell) : Prop :=
  (SoilFlag.P ∈ cell → SoilFlag.X ∈ cell) ∧
  (SoilFlag.X ∈ cell → SoilFlag.F ∈ cell)

/-- The flag chain holds in every cell of the grid. -/
def Chain (g : SoilGrid) : Prop :=
  ∀ r c cell, cellAt g r c = some cell → ChainCell cell

/-- Every soil sprite sits on a Tilled grid cell. -/
def SpritesTilled (s : SoilState) : Prop :=
  ∀ q ∈ s.soilSprites,
    ∃ cell, cellAt s.grid (q.1.2 / 64) (q.1.1 / 64) = some cell ∧
      SoilFlag.X ∈ cell

/-- The inductive invariant for C1. -/
def SoilInv (s : SoilState) : Prop := Chain s.grid ∧ SpritesTilled s

theorem chainCell_append_W {cell : Cell} (h : ChainCell cell) :
    ChainCell (cell ++ [SoilFlag.W]) := by
  obtain ⟨h1, h2⟩ := h
  constructor
  · intro hp
    rcases List.mem_append.mp hp with hp | hp
    · exact List.mem_append.mpr (Or.inl (h1 hp))
    · simp at hp
  · intro hx
    rcases List.mem_append.mp hx with hx | hx
    · exact List.mem_append.mpr (Or.inl (h2 hx))
    · simp at hx

theorem chainCell_append_X {cell : Cell} (hF : SoilFlag.F ∈ cell)
    (h : ChainCell cell) : ChainCell (cell ++ [SoilFlag.X]) := by
  obtain ⟨h1, h2⟩ := h
  constructor
  · intro hp
    rcases List.mem_append.mp hp with hp | hp
    · exact List.mem_append.mpr (Or.inl (h1 hp))
    · simp at hp
  · intro _
    exact List.mem_append.mpr (Or.inl hF)

theorem chainCell_append_P {cell : Cell} (hX : SoilFlag.X ∈ cell)
    (h : ChainCell cell) : ChainCell (cell ++ [SoilFlag.P]) := by
  obtain ⟨h1, h2⟩ := h
  constructor
  · intro _
    exact List.mem_append.mpr (Or.inl hX)
  · intro hx
    rcases List.mem_append.mp hx with hx | hx
    · exact List.mem_append.mpr (Or.inl (h2 hx))
    · simp at hx

theorem chain_modifyCell {g : SoilGrid} (r c : Nat) {f : Cell → Cell}
    (hg : Chain g)
    (hf : ∀ cell, cellAt g r c = some cell → ChainCell (f cell)) :
    Chain (modifyCell g r c f) := by
  intro r' c' cell hcell
  rcases cellAt_modifyCell g r c f r' c' with heq | ⟨hr, hc, heq⟩
  · exact hg r' c' cell (heq.symm.trans hcell)
  · subst hr
    subst hc
    rw [heq] at hcell
    cases horig : cellAt g r' c' with
    | none => rw [horig] at hcell; exact Option.noConfusion hcell
    | some cell0 =>
      rw [horig] at hcell
      simp only [Option.map_some'] at hcell
      cases hcell
      exact hf cell0 horig

theorem chain_create_soil_grid (rows cols : Nat) (farm : Nat → Nat → Bool) :
    Chain (create_soil_grid rows cols farm) := by
  intro r c cell hcell
  unfold cellAt create_soil_grid at hcell
  rcases hrw : ((List.range rows).map fun r =>
      (List.range cols).map fun c => if farm r c then [SoilFlag.F] else [])[r]?
    with _ | row
  · rw [hrw] at hcell; exact Option.noConfusion hcell
  · rw [hrw, Option.some_bind] at hcell
    rw [List.getElem?_map] at hrw
    rcases hr : (List.range rows)[r]? with _ | rv
    · rw [hr] at hrw; exact Option.noConfusion hrw
    · rw [hr] at hrw
      simp only [Option.map_some'] at hrw
      cases hrw
      rw [List.getElem?_map] at hcell
      rcases hc : (List.range cols)[c]? with _ | cv
      · rw [hc] at hcell; exact Option.noConfusion hcell
      · rw [hc] at hcell
        simp only [Option.map_some'] at hcell
        cases hcell
        by_cases hfarm : farm rv cv
        · simp only [hfarm, if_pos]
          exact ⟨fun hp => by simp at hp, fun hx => by simp at hx⟩
        · simp only [hfarm, if_neg, reduceIte]
          exact ⟨fun hp => by simp at hp, fun hx => by simp at hx⟩

theorem soilTilesCells_mem (g : SoilGrid) (row : List Cell) (r : Nat)
    (q : SoilTileSprite) :
    ∀ (cs : List Cell) (c : Nat), (∀ k, cs[k]? = row[c + k]?) →
      q ∈ (soilTilesCells g row r c cs).1 →
      ∃ c' cell, row[c']? = some cell ∧ SoilFlag.X ∈ cell ∧
        q.1 = (c' * 64, r * 64) := by
  intro cs
  induction cs with
  | nil => intro c hsuf hq; simp [soilTilesCells] at hq
  | cons cell rest ih =>
    intro c hsuf hq
    have hcell : row[c]? = some cell := by simpa using (hsuf 0).symm
    have hsuf' : ∀ k, rest[k]? = row[c + 1 + k]? := by
      intro k
      have := hsuf (k + 1)
      simpa [show c + (k + 1) = c + 1 + k from by omega] using this
    by_cases hX : SoilFlag.X ∈ cell
    · rcases hnb : neighborsAt g row r c with _ | tuple
      · simp only [soilTilesCells, hX, if_pos, hnb] at hq
        simp at hq
      · obtain ⟨t, rn, b, l⟩ := tuple
        simp only [soilTilesCells, hX, if_pos, hnb] at hq
        rcases List.mem_cons.mp hq with hq | hq
        · exact ⟨c, cell, hcell, hX, by rw [hq]⟩
        · exact ih (c + 1) hsuf' hq
    · simp only [soilTilesCells, hX, if_neg, reduceIte] at hq
      exact ih (c + 1) hsuf' hq

theorem soilTilesRows_mem (g : SoilGrid) (q : SoilTileSprite) :
    ∀ (rs : List (List Cell)) (r : Nat), (∀ k, rs[k]? = g[r + k]?) →
      q ∈ (soilTilesRows g r rs).1 →
      ∃ r' c' cell, cellAt g r' c' = some cell ∧ SoilFlag.X ∈ cell ∧
        q.1 = (c' * 64, r' * 64) := by
  intro rs
  induction rs with
  | nil => intro r hsuf hq; simp [soilTilesRows] at hq
  | cons row rest ih =>
    intro r hsuf hq
    have hrow : g[r]? = some row := by simpa using (hsuf 0).symm
    have hsuf' : ∀ k, rest[k]? = g[r + 1 + k]? := by
      intro k
      have := hsuf (k + 1)
      simpa [show r + (k + 1) = r + 1 + k from by omega] using this
    have hthis : q ∈ (soilTilesCells g row r 0 row).1 →
        ∃ r' c' cell, cellAt g r' c' = some cell ∧ SoilFlag.X ∈ cell ∧
          q.1 = (c' * 64, r' * 64) := by
      intro hmem
      obtain ⟨c', cell, h1, h2, h3⟩ :=
        soilTilesCells_mem g row r q row 0 (fun k => by simp) hmem
      exact ⟨r, c', cell, by rw [cellAt, hrow, Option.some_bind]; exact h1, h2, h3⟩
    by_cases hres : (soilTilesCells g row r 0 row).2 = true
    · simp only [soilTilesRows, hres, if_pos] at hq
      exact hthis hq
    · simp only [soilTilesRows, hres, if_neg, Bool.false_eq_true, reduceIte] at hq
      rcases List.mem_append.mp hq with hq | hq
      · exact hthis hq
      · exact ih (r + 1) hsuf' hq

theorem create_soil_tiles_mem (g : SoilGrid) (q : SoilTileSprite)
    (hq : q ∈ (create_soil_tiles g).1) :
    ∃ cell, cellAt g (q.1.2 / 64) (q.1.1 / 64) = some cell ∧
      SoilFlag.X ∈ cell := by
  obtain ⟨r', c', cell, h1, h2, h3⟩ :=
    soilTilesRows_mem g q g 0 (fun k => by simp) hq
  rw [h3]
  simp only [Nat.mul_div_cancel _ (by norm_num : (0 : Nat) < 64)]
  exact ⟨cell, h1, h2⟩

/-- The per-cell effect of `water_all`. -/
def wmap (cell : Cell) : Cell :=
  if SoilFlag.X ∈ cell ∧ SoilFlag.W ∉ cell then cell ++ [SoilFlag.W] else cell

theorem waterAllCells_fst (r : Nat) :
    ∀ (cs : List Cell) (c : Nat), (waterAllCells r c cs).1 = cs.map wmap := by
  intro cs
  induction cs with
  | nil => intro c; rfl
  | cons cell rest ih =>
    intro c
    by_cases h : SoilFlag.X ∈ cell ∧ SoilFlag.W ∉ cell
    · simp [waterAllCells, h, wmap, ih (c + 1)]
    · simp [waterAllCells, h, wmap, ih (c + 1)]

theorem waterAllRows_fst :
    ∀ (rs : List (List Cell)) (r : Nat),
      (waterAllRows r rs).1 = rs.map (List.map wmap) := by
  intro rs
  induction rs with
  | nil => intro r; rfl
  | cons row rest ih =>
    intro r
    simp only [waterAllRows, List.map_cons, waterAllCells_fst r row 0, ih (r + 1)]

theorem cellAt_map_map (g : SoilGrid) (f : Cell → Cell) (r c : Nat) :
    cellAt (g.map (List.map f)) r c = (cellAt g r c).map f := by
  unfold cellAt
  rw [List.getElem?_map]
  cases g[r]? with
  | none => rfl
  | some row => simp [List.getElem?_map]

theorem chainCell_wmap {cell : Cell} (h : ChainCell cell) : ChainCell (wmap cell) := by
  unfold wmap
  by_cases hc : SoilFlag.X ∈ cell ∧ SoilFlag.W ∉ cell
  · simp only [hc, if_pos]
    exact chainCell_append_W h
  · simpa [hc] using h

theorem X_mem_wmap {cell : Cell} (h : SoilFlag.X ∈ cell) : SoilFlag.X ∈ wmap cell := by
  unfold wmap
  by_cases hc : SoilFlag.X ∈ cell ∧ SoilFlag.W ∉ cell
  · simp only [hc, if_pos]
    exact List.mem_append.mpr (Or.inl h)
  · simpa [hc] using h

theorem soilInv_water_all {s : SoilState} (hs : SoilInv s) : SoilInv (water_all s) := by
  obtain ⟨hchain, hspr⟩ := hs
  have hgrid : (water_all s).grid = s.grid.map (List.map wmap) := by
    simp only [water_all, waterAllRows_fst]
  constructor
  · intro r c cell hcell
    rw [hgrid, cellAt_map_map] at hcell
    cases h0 : cellAt s.grid r c with
    | none => rw [h0] at hcell; exact Option.noConfusion hcell
    | some cell0 =>
      rw [h0] at hcell
      simp only [Option.map_some'] at hcell
      cases hcell
      exact chainCell_wmap (hchain r c cell0 h0)
  · intro q hq
    obtain ⟨cell, h1, h2⟩ := hspr q hq
    refine ⟨wmap cell, ?_, X_mem_wmap h2⟩
    rw [hgrid, cellAt_map_map, h1, Option.map_some']

theorem sprite_cell_grows {g : SoilGrid} (y x : Nat) (fl : SoilFlag)
    {r c : Nat} {cell : Cell}
    (h : cellAt g r c = some cell) (hX : SoilFlag.X ∈ cell) :
    ∃ cell', cellAt (modifyCell g y x fun cl => cl ++ [fl]) r c = some cell' ∧
      SoilFlag.X ∈ cell' := by
  rcases cellAt_modifyCell g y x (fun cl => cl ++ [fl]) r c with heq | ⟨_, _, heq⟩
  · exact ⟨cell, heq.trans h, hX⟩
  · rw [h] at heq
    simp only [Option.map_some'] at heq
    exact ⟨cell ++ [fl], heq, List.mem_append.mpr (Or.inl hX)⟩

theorem soilInv_getHitGo (p : Int × Int) :
    ∀ (rects : List (Nat × Nat)) (s : SoilState),
      SoilInv s → SoilInv (getHitGo p s rects).1 := by
  intro rects
  induction rects with
  | nil => intro s hs; exact hs
  | cons q rest ih =>
    intro s hs
    obtain ⟨rx, ry⟩ := q
    by_cases hcol : collide64 rx ry p
    · simp only [getHitGo, hcol, if_pos]
      cases hcell : cellAt s.grid (ry / 64) (rx / 64) with
      | none => exact hs
      | some cell =>
        by_cases hF : SoilFlag.F ∈ cell
        · simp only [hF, if_pos]
          have hchain : Chain (modifyCell s.grid (ry / 64) (rx / 64)
              fun cl => cl ++ [SoilFlag.X]) := by
            refine chain_modifyCell _ _ hs.1 ?_
            intro cell0 h0
            rw [hcell] at h0
            cases h0
            exact chainCell_append_X hF (hs.1 _ _ _ hcell)
          have hs1 : SoilInv { s with
              grid := modifyCell s.grid (ry / 64) (rx / 64) fun cl => cl ++ [SoilFlag.X]
              soilSprites := (create_soil_tiles (modifyCell s.grid (ry / 64) (rx / 64)
                fun cl => cl ++ [SoilFlag.X])).1 } :=
            ⟨hchain, fun q hq => create_soil_tiles_mem _ q hq⟩
          by_cases hraise : (create_soil_tiles (modifyCell s.grid (ry / 64) (rx / 64)
              fun cl => cl ++ [SoilFlag.X])).2 = true
          · simp only [hraise, if_pos]
            exact hs1
          · simp only [hraise, Bool.false_eq_true, reduceIte]
            by_cases hrain : s.raining
            · simp only [hrain, if_pos]
              exact ih _ (soilInv_water_all hs1)
            · simp only [hrain, reduceIte]
              exact ih _ hs1
        · simp only [hF, reduceIte]
          exact ih s hs
    · simp only [getHitGo, hcol, Bool.false_eq_true, reduceIte]
      exact ih s hs

theorem soilInv_plantSeedGo (p : Int × Int) (seed : String) :
    ∀ (l : List SoilTileSprite) (s : SoilState),
      SoilInv s → (∀ q ∈ l, q ∈ s.soilSprites) →
      SoilInv (plantSeedGo p seed s l) := by
  intro l
  induction l with
  | nil => intro s hs _; exact hs
  | cons q rest ih =>
    intro s hs hsub
    obtain ⟨⟨rx, ry⟩, key⟩ := q
    by_cases hcol : collide64 rx ry p
    · simp only [plantSeedGo, hcol, if_pos]
      cases hcell : cellAt s.grid (ry / 64) (rx / 64) with
      | none => exact hs
      | some cell =>
        by_cases hP : SoilFlag.P ∈ cell
        · simp only [hP, if_pos]
          exact ih s hs fun q hq => hsub q (List.mem_cons_of_mem _ hq)
        · simp only [hP, reduceIte]
          have hX : SoilFlag.X ∈ cell := by
            obtain ⟨cell0, h0, hx0⟩ :=
              hs.2 ((rx, ry), key) (hsub _ (List.mem_cons_self _ _))
            rw [hcell] at h0
            cases h0
            exact hx0
          refine ih _ ⟨?_, ?_⟩ fun q hq => hsub q (List.mem_cons_of_mem _ hq)
          · refine chain_modifyCell _ _ hs.1 ?_
            intro cell0 h0
            rw [hcell] at h0
            cases h0
            exact chainCell_append_P hX (hs.1 _ _ _ hcell)
          · intro q hq
            obtain ⟨cell0, h0, hx0⟩ := hs.2 q hq
            exact sprite_cell_grows _ _ SoilFlag.P h0 hx0
    · simp only [plantSeedGo, hcol, Bool.false_eq_true, reduceIte]
      exact ih s hs fun q hq => hsub q (List.mem_cons_of_mem _ hq)

theorem soilInv_initSoil (rows cols : Nat) (farm : Nat → Nat → Bool)
    (raining : Bool) : SoilInv (initSoil rows cols farm raining) :=
  ⟨chain_create_soil_grid rows cols farm,
   fun q hq => absurd hq (List.not_mem_nil q)⟩

theorem soilInv_runSoilOps (ops : List SoilOp) :
    ∀ s : SoilState, SoilInv s → SoilInv (runSoilOps s ops) := by
  induction ops with
  | nil => intro s hs; exact hs
  | cons op rest ih =>
    intro s hs
    cases op with
    | till p => exact ih _ (soilInv_getHitGo p s.hitRects s hs)
    | plant p seed => exact ih _ (soilInv_plantSeedGo p seed s.soilSprites s hs fun q hq => hq)

/-- C1: starting from a freshly constructed soil layer over any map
(any grid size, any Farmable layer, raining or not), after every finite
sequence of till (`get_hit`) and plant (`plant_seed`) operations — at
arbitrary points and with arbitrary seeds, including sequences in which
a till raises mid-way — every cell of the grid satisfies the flag chain:
Planted implies Tilled, and Tilled implies Farmable. -/
theorem soil_flag_chain (rows cols : Nat) (farm : Nat → Nat → Bool)
    (raining : Bool) (ops : List SoilOp) :
    Chain (runSoilOps (initSoil rows cols farm raining) ops).grid :=
  (soilInv_runSoilOps ops _ (soilInv_initSoil rows cols farm raining)).1
